import Mathlib

/-!
Verification of the aws-bia CLI core components against their design
specification.  The Go source is shallowly embedded: Go strings and byte
slices become `List Char`, the event stream of one `InvokeAgent` call
becomes a list of events plus an optional terminal transport error, and
the file system becomes an explicit map from paths to contents that is
threaded through the file helpers.  Writer/echo side effects and verbose
logging only touch the output sink, never the returned values, so they
are not part of the embedding.
-/

set_option maxHeartbeats 1000000

namespace AwsBia

/-- Go strings, embedded as character lists. -/
abbrev GoStr := List Char

/-- Go byte slices.  A Go `string(b)` conversion is the identity here, so
byte payloads share the representation of strings. -/
abbrev Bytes := List Char

/-- Literal helper turning a Lean string literal into a `GoStr`. -/
def gs (s : String) : GoStr := s.data

/-- Go `strings.Contains`: does `sub` occur contiguously inside `s`. -/
def goContains : GoStr → GoStr → Bool
  | [], sub => sub.isEmpty
  | c :: t, sub => sub.isPrefixOf (c :: t) || goContains t sub

/-- Go `filepath.Ext` (Unix rules): the suffix of the final path element
starting at its last dot, or empty when the final element has no dot.
The scan runs from the right and stops at the first path separator. -/
def goExt (path : GoStr) : GoStr :=
  match path.reverse.dropWhile (fun c => c != '/' && c != '.') with
  | stopChar :: _ =>
    if stopChar = '.' then
      '.' :: (path.reverse.takeWhile (fun c => c != '/' && c != '.')).reverse
    else []
  | [] => []

/-- Go `filepath.Base` (Unix rules): strip trailing separators, then keep
everything after the last separator; empty paths give a dot and all-slash
paths give a slash. -/
def goBase (path : GoStr) : GoStr :=
  if path = [] then gs "."
  else
    let p := (path.reverse.dropWhile (fun c => c = '/')).reverse
    if p = [] then gs "/"
    else (p.reverse.takeWhile (fun c => c != '/')).reverse

/-- Go `strings.TrimSuffix`. -/
def trimSuffix (s suffix : GoStr) : GoStr :=
  if suffix.isSuffixOf s then s.take (s.length - suffix.length) else s

/-- Go `strings.ToLower`, restricted to the ASCII mapping that the file
extensions in this code base use. -/
def toLowerStr (s : GoStr) : GoStr := s.map Char.toLower

/- ===== Stream event model (bedrockagentruntime/types) ===== -/

/-- Model of `types.TextResponsePart`. -/
structure TextResponsePart where
  text : Option GoStr
deriving DecidableEq, Repr

/-- Model of `types.GeneratedResponsePart`. -/
structure GeneratedResponsePart where
  textResponsePart : Option TextResponsePart
deriving DecidableEq, Repr

/-- Model of `types.RetrievalResultLocation`; only the `Type` tag is used here. -/
structure RetrievalResultLocation where
  type : GoStr
deriving DecidableEq, Repr

/-- Model of `types.RetrievalResultContent`. -/
structure RetrievalResultContent where
  text : Option GoStr
deriving DecidableEq, Repr

/-- Model of `types.RetrievedReference`. -/
structure RetrievedReference where
  location : Option RetrievalResultLocation
  content : Option RetrievalResultContent
deriving DecidableEq, Repr

/-- Model of `types.Citation`. -/
structure Citation where
  generatedResponsePart : Option GeneratedResponsePart
  retrievedReferences : List RetrievedReference
deriving DecidableEq, Repr

/-- Model of `types.Attribution`. -/
structure Attribution where
  citations : List Citation
deriving DecidableEq, Repr

/-- Model of `types.PayloadPart`, the payload of a `ResponseStreamMemberChunk`. -/
structure PayloadPart where
  bytes : Bytes
  attribution : Option Attribution
deriving DecidableEq, Repr

/-- Model of `types.OutputFile`: the `Name` and `Type` fields are pointers in Go,
hence options here. -/
structure OutputFile where
  name : Option GoStr
  bytes : Bytes
  type : Option GoStr
deriving DecidableEq, Repr

/-- Model of `types.ReturnControlPayload`; the processor reads the invocation id
and the number of invocation inputs. -/
structure ReturnControlPayload where
  invocationId : Option GoStr
  invocationInputs : Option (List Unit)
deriving DecidableEq, Repr

/-- The closed union of `types.ResponseStream` members that the
type-switch in `ProcessStream` distinguishes; the `default` arm of the
switch is the `unknown` constructor. -/
inductive StreamEvent where
  | chunk (value : PayloadPart)
  | files (value : List OutputFile)
  | trace
  | returnControl (value : ReturnControlPayload)
  | unknown
deriving DecidableEq, Repr

/-- The four accumulators of `StreamProcessor.ProcessStream`. -/
structure StreamState where
  textResponse : Bytes
  citations : List Citation
  outputFiles : List OutputFile
  hasReturnControl : Bool
deriving DecidableEq, Repr

/-- The empty accumulators at stream start. -/
def StreamState.initial : StreamState := ⟨[], [], [], false⟩

/-- One iteration of the event loop of `ProcessStream` (the type switch).
Writing chunk text and file summaries to the live writer only touches the
output sink, so it does not appear in the state transition. -/
def processEvent (s : StreamState) : StreamEvent → StreamState
  | .chunk v =>
    let s := if v.bytes.length > 0 then { s with textResponse := s.textResponse ++ v.bytes } else s
    match v.attribution with
    | some attribution =>
      if attribution.citations.length > 0 then
        { s with citations := s.citations ++ attribution.citations }
      else s
    | none => s
  | .files fileList =>
    if fileList.length > 0 then { s with outputFiles := s.outputFiles ++ fileList } else s
  | .trace => s
  | .returnControl _ => { s with hasReturnControl := true }
  | .unknown => s

/-- The `InvokeAgentEventStream`: the ordered events the transport
delivers, plus the terminal error state that `stream.Err()` reports after
the loop has drained the events. -/
structure EventStream where
  events : List StreamEvent
  terminalError : Option GoStr
deriving DecidableEq, Repr

/-- Go `fmt.Errorf` with a `%w` verb: the rendered message is the prefix
followed by the wrapped error's message. -/
def wrapErr (msg : String) (e : GoStr) : GoStr := gs msg ++ e

/-- The tail of `HandleAWSError` reached when no Bedrock-specific pattern
matched: network timeout, user cancellation, then the generic fallback. -/
def handleAWSErrorTail (e : GoStr) : GoStr :=
  if goContains e (gs "dial tcp") && goContains e (gs "i/o timeout") then
    wrapErr "network connection timed out - check your internet connection: " e
  else if goContains e (gs "context canceled") then
    wrapErr "operation canceled by user: " e
  else wrapErr "AWS Bedrock error: " e

/-- Translation of `HandleAWSError` from the AWS utilities file: pattern-match the error
message against known Bedrock error categories and rewrite it into an
actionable message, preserving the cause. -/
def HandleAWSError (e : GoStr) : GoStr :=
  if goContains e (gs "operation error Bedrock Agent Runtime") then
    if goContains e (gs "InvalidAgentAliasId") then
      wrapErr "agent alias ID not found or not accessible with your credentials: " e
    else if goContains e (gs "InvalidAgentId") then
      wrapErr "agent ID not found or not accessible with your credentials: " e
    else if goContains e (gs "ThrottlingException") then
      wrapErr "request was throttled - please reduce request rate and try again: " e
    else if goContains e (gs "ValidationException") then
      wrapErr "validation error - please check your input parameters: " e
    else if goContains e (gs "AccessDeniedException") then
      wrapErr "access denied - check your IAM permissions for Bedrock services: " e
    else if goContains e (gs "ResourceNotFoundException") then
      wrapErr "resource not found - verify your agent ID and alias ID are correct: " e
    else if goContains e (gs "context deadline exceeded") || goContains e (gs "timeout") then
      wrapErr "operation timed out - try increasing the timeout value: " e
    else if goContains e (gs "ValidationException") && goContains e (gs "file") then
      wrapErr "file validation error - check file sizes and formats: " e
    else handleAWSErrorTail e
  else handleAWSErrorTail e

/-- Model of `StreamProcessor.ProcessStream`: fold the events into the four
accumulators; after the loop, a terminal transport error is wrapped as
"error during streaming" and translated by `HandleAWSError`, while the
accumulators gathered so far are returned alongside it. -/
def ProcessStream (stream : EventStream) : StreamState × Option GoStr :=
  let final := stream.events.foldl processEvent StreamState.initial
  match stream.terminalError with
  | some err => (final, some (HandleAWSError (wrapErr "error during streaming: " err)))
  | none => (final, none)

/-- The byte payloads of the `TextChunk` events of a sequence, in arrival
order. -/
def chunkPayloads : List StreamEvent → List Bytes
  | [] => []
  | .chunk v :: rest => v.bytes :: chunkPayloads rest
  | _ :: rest => chunkPayloads rest

/-- The citation lists carried by the `TextChunk` attributions of a
sequence, in arrival order. -/
def citationPayloads : List StreamEvent → List (List Citation)
  | [] => []
  | .chunk v :: rest =>
    (match v.attribution with
     | some attribution => attribution.citations
     | none => []) :: citationPayloads rest
  | _ :: rest => citationPayloads rest

/-- The file batches carried by the `GeneratedFiles` events of a
sequence, in arrival order. -/
def filePayloads : List StreamEvent → List (List OutputFile)
  | [] => []
  | .files fileList :: rest => fileList :: filePayloads rest
  | _ :: rest => filePayloads rest

/-- Events that carry no result data: traces, control handoffs and
unrecognized variants. -/
def isPassiveEvent : StreamEvent → Bool
  | .trace => true
  | .returnControl _ => true
  | .unknown => true
  | _ => false

/- ===== File helper (cmd/fileutils.go) ===== -/

/-- The subset of `AgentOptions` fields that the file helpers and the
response formatter read. -/
structure AgentOptions where
  sessionID : GoStr
  enableStreaming : Bool
  outputFormat : GoStr
  filesOutputDir : GoStr
  uploadFiles : List GoStr
  fileUseCase : GoStr
  verbose : Bool

/-- The generic unknown-binary type that `http.DetectContentType` falls
back to when no content signature matches. -/
def octetStream : GoStr := gs "application/octet-stream"

/-- The extension-keyed fallback table of `DetectMimeType`, written as a
lookup so that the switch's fallthrough default is the `none` case. -/
def extMimeTable (ext : GoStr) : Option GoStr :=
  if ext = gs ".csv" then some (gs "text/csv")
  else if ext = gs ".json" then some (gs "application/json")
  else if ext = gs ".txt" then some (gs "text/plain")
  else if ext = gs ".pdf" then some (gs "application/pdf")
  else if ext = gs ".xlsx" ∨ ext = gs ".xls" then
    some (gs "application/vnd.openxmlformats-officedocument.spreadsheetml.sheet")
  else if ext = gs ".docx" ∨ ext = gs ".doc" then
    some (gs "application/vnd.openxmlformats-officedocument.wordprocessingml.document")
  else if ext = gs ".pptx" ∨ ext = gs ".ppt" then
    some (gs "application/vnd.openxmlformats-officedocument.presentationml.presentation")
  else none

/-- Model of `DetectMimeType`, parameterized over the content sniffer
(`http.DetectContentType` is Go standard library code, kept abstract):
sniff first; on the generic unknown-binary result fall back to the
extension table (keeping the sniff result for unknown extensions);
otherwise, for textual types, drop everything from the first semicolon
separator (the slice `mimeType[:idx]` at the first semicolon index). -/
def DetectMimeType (sniff : Bytes → GoStr) (filePath : GoStr) (content : Bytes) : GoStr :=
  if sniff content = octetStream then
    (extMimeTable (toLowerStr (goExt filePath))).getD (sniff content)
  else
    if (gs "text/").isPrefixOf (sniff content) ∧ (sniff content).contains ';' then
      (sniff content).takeWhile (fun c => c != ';')
    else sniff content

/-- The 10 MiB aggregate upload limit of `PrepareInputFiles`. -/
def maxUploadSize : Nat := 10 * 1024 * 1024

/-- One upload-ready record: `types.InputFile` with its byte-content
source flattened (display name, content, detected media type, use case). -/
structure InputFile where
  name : GoStr
  data : Bytes
  mediaType : GoStr
  useCase : GoStr
deriving DecidableEq, Repr

/-- Errors of the file helpers. -/
inductive FileError where
  | statFailed (path : GoStr)
  | sizeLimitExceeded (totalSize : Nat)
  | mkdirFailed (dir : GoStr)
  | saveFailed (path : GoStr)
deriving DecidableEq, Repr

/-- The loop body of `PrepareInputFiles`.  The file system is a map from
paths to contents (`os.Stat` reports the content length as the size and
`os.ReadFile` returns the content; a missing path fails the stat).  The
second component logs, in order, the paths whose contents were actually
read, so that the incremental size check's early exit is observable. -/
def prepareLoop (sniff : Bytes → GoStr) (fs : GoStr → Option Bytes) (useCase : GoStr) :
    List GoStr → Nat → List InputFile → List GoStr →
    Except FileError (List InputFile) × List GoStr
  | [], _, inputFiles, reads => (.ok inputFiles, reads)
  | filePath :: rest, totalSize, inputFiles, reads =>
    match fs filePath with
    | none => (.error (.statFailed filePath), reads)
    | some fileContent =>
      let totalSize := totalSize + fileContent.length
      if maxUploadSize < totalSize then
        (.error (.sizeLimitExceeded totalSize), reads)
      else
        let inputFile : InputFile :=
          { name := goBase filePath
            data := fileContent
            mediaType := DetectMimeType sniff filePath fileContent
            useCase := useCase }
        prepareLoop sniff fs useCase rest totalSize (inputFiles ++ [inputFile]) (reads ++ [filePath])

/-- Model of `FileHelper.PrepareInputFiles`: nothing to do without upload files,
otherwise run the incremental stat/check/read/classify loop. -/
def PrepareInputFiles (sniff : Bytes → GoStr) (fs : GoStr → Option Bytes)
    (opts : AgentOptions) : Except FileError (List InputFile) × List GoStr :=
  if opts.uploadFiles.length = 0 then (.ok [], [])
  else prepareLoop sniff fs opts.fileUseCase opts.uploadFiles 0 [] []

/-- The aggregate size that `os.Stat` reports for a list of paths. -/
def totalUploadSize (fs : GoStr → Option Bytes) (paths : List GoStr) : Nat :=
  (paths.map (fun p => ((fs p).getD []).length)).sum

/-- Concrete sniffer for the C4 witness. -/
def c4sniff : Bytes → GoStr := fun _ => octetStream

/-- Concrete file system for the C4 witness: one file of exactly 10 MiB,
one file of a single byte, and one more 10 MiB file. -/
def c4fs : GoStr → Option Bytes := fun p =>
  if p = gs "a" then some (List.replicate maxUploadSize 'x')
  else if p = gs "b" then some ['y']
  else if p = gs "c" then some (List.replicate maxUploadSize 'x')
  else none

/-- Options for the C4 witness, exact-limit run. -/
def c4optsA : AgentOptions :=
  ⟨[], false, gs "json", [], [gs "a"], gs "CODE_INTERPRETER", false⟩

/-- Options for the C4 witness, limit-crossing run. -/
def c4optsB : AgentOptions := { c4optsA with uploadFiles := [gs "b", gs "c"] }

/- ===== Output-file materializer (FileHelper.HandleFileOutput) ===== -/

/-- The file system as the materializer sees it: path contents (a stat
succeeds exactly when the path is mapped), which paths `os.WriteFile`
fails on, and whether `os.MkdirAll` fails for the output directory. -/
structure FS where
  contents : GoStr → Option Bytes
  writeFails : GoStr → Bool
  mkdirFails : Bool

/-- A successful `os.WriteFile`: the path now maps to the data. -/
def FS.write (fs : FS) (path : GoStr) (data : Bytes) : FS :=
  { fs with contents := fun q => if q = path then some data else fs.contents q }

/-- The output path chosen for the file at 0-based loop index `i` with
declared name `name`: join the output directory with the path-traversal
safe base name; if that exact path already exists, insert the 1-based
sequence index between base and extension instead of overwriting.
`filepath.Join` is modelled as a plain separator-joined concatenation:
the joined second component is a slash-free base name, so Clean
normalization does not change it. -/
def outputPathFor (dir : GoStr) (i : Nat) (name : GoStr) (fs : FS) : GoStr :=
  if (fs.contents (dir ++ gs "/" ++ goBase name)).isSome then
    dir ++ gs "/" ++
      (trimSuffix (goBase name) (goExt (goBase name)) ++ gs "_" ++ (Nat.repr (i + 1)).data
        ++ goExt (goBase name))
  else dir ++ gs "/" ++ goBase name

/-- The write loop of `HandleFileOutput`: skip files without names, stop
at the first write failure returning the paths saved so far, otherwise
record the path and continue on the updated file system. -/
def handleLoop (dir : GoStr) : Nat → List OutputFile → List GoStr → FS →
    List GoStr × Option FileError × FS
  | _, [], savedFiles, fs => (savedFiles, none, fs)
  | i, file :: rest, savedFiles, fs =>
    match file.name with
    | none => handleLoop dir (i + 1) rest savedFiles fs
    | some name =>
      if fs.writeFails (outputPathFor dir i name fs) then
        (savedFiles, some (.saveFailed (outputPathFor dir i name fs)), fs)
      else
        handleLoop dir (i + 1) rest (savedFiles ++ [outputPathFor dir i name fs])
          (fs.write (outputPathFor dir i name fs) file.bytes)

/-- Model of `FileHelper.HandleFileOutput`: no-op without files or without an
output directory; otherwise create the directory and run the write
loop. -/
def HandleFileOutput (opts : AgentOptions) (files : List OutputFile) (fs : FS) :
    List GoStr × Option FileError × FS :=
  if files.length = 0 ∨ opts.filesOutputDir = [] then ([], none, fs)
  else if fs.mkdirFails then ([], some (.mkdirFailed opts.filesOutputDir), fs)
  else handleLoop opts.filesOutputDir 0 files [] fs

/-- Concrete file system for the C7 counterexample: the output directory
already contains a file named d.csv. -/
def c7fs : FS :=
  { contents := fun q => if q = gs "o/d.csv" then some ['9'] else none
    writeFails := fun _ => false
    mkdirFails := false }

/-- Options for the C7 counterexample. -/
def c7opts : AgentOptions :=
  ⟨[], false, gs "json", gs "o", [], gs "CODE_INTERPRETER", false⟩

/-- Files for the C7 counterexample: the first two form a pair with the
same base name; the third has a different base name whose collision
rename resolves to the first pair member's path. -/
def c7files : List OutputFile :=
  [⟨some (gs "d_3.csv"), ['1'], none⟩, ⟨some (gs "d_3.csv"), ['2'], none⟩,
    ⟨some (gs "d.csv"), ['3'], none⟩]

/-- Concrete file system for the C7 witness: empty and fully writable. -/
def c7wfs : FS :=
  { contents := fun _ => none
    writeFails := fun _ => false
    mkdirFails := false }

/-- Options for the C7 witness. -/
def c7wopts : AgentOptions :=
  ⟨[], false, gs "json", gs "out", [], gs "CODE_INTERPRETER", false⟩

/-- Concrete file system for the C8 witness: everything is writable
except the path the middle file resolves to. -/
def c8fs : FS :=
  { contents := fun _ => none
    writeFails := fun p => p == gs "o/b.txt"
    mkdirFails := false }

/-- Options for the C8 witness. -/
def c8opts : AgentOptions :=
  ⟨[], false, gs "json", gs "o", [], gs "CODE_INTERPRETER", false⟩

/- ===== Response formatter, structured mode (writeJSONResponse) ===== -/

/-- JSON-like values of the structured response document. -/
inductive JVal where
  | str (s : GoStr)
  | num (n : Nat)
  | boolean (b : Bool)
  | arr (xs : List JVal)
  | obj (fields : List (String × JVal))

/-- Key lookup in a document built as an association list (the Go map's
key set, kept in insertion order). -/
def getKey (doc : List (String × JVal)) (key : String) : Option JVal :=
  (doc.find? (fun kv => kv.1 == key)).map (fun kv => kv.2)

/-- The text of a citation's generated response part, when every pointer
on the chain is present. -/
def citationText (c : Citation) : Option GoStr :=
  match c.generatedResponsePart with
  | some g =>
    match g.textResponsePart with
    | some t => t.text
    | none => none
  | none => none

/-- One retrieved reference formatted for JSON: location type and content
text, each only when present. -/
def formatRef (ref : RetrievedReference) : List (String × JVal) :=
  (match ref.location with
   | some loc => [("locationType", JVal.str loc.type)]
   | none => [])
  ++ (match ref.content with
      | some c =>
        match c.text with
        | some t => [("contentText", JVal.str t)]
        | none => []
      | none => [])

/-- Model of `formatCitationsForJSON`: citation records carrying text and the
non-empty reference records; empty citation records are dropped. -/
def formatCitationsForJSON (citations : List Citation) : List JVal :=
  citations.foldl (fun formatted citation =>
    let citationInfo : List (String × JVal) :=
      (match citationText citation with
       | some t => [("text", JVal.str t)]
       | none => [])
      ++ (if (((citation.retrievedReferences.map formatRef).filter
            (fun r => r.length > 0)).map JVal.obj).length > 0 then
          [("references", JVal.arr (((citation.retrievedReferences.map formatRef).filter
            (fun r => r.length > 0)).map JVal.obj))]
        else [])
    if citationInfo.length > 0 then formatted ++ [JVal.obj citationInfo]
    else formatted) []

/-- The files metadata loop of `addResponseMetadata`.  The Go loop
dereferences the `Name` pointer unconditionally, so a file without a
name makes it panic: that is the `none` result here. -/
def mkFileInfos : List OutputFile → Option (List JVal)
  | [] => some []
  | file :: rest =>
    match file.name with
    | none => none
    | some n =>
      match mkFileInfos rest with
      | none => none
      | some tail =>
        some (JVal.obj
          ([("name", JVal.str n), ("size", JVal.num file.bytes.length)]
            ++ (match file.type with
                | some t => [("type", JVal.str t)]
                | none => [])) :: tail)

/-- Model of `FormatUploadedFilesInfo`: one name/size/path record per upload path
whose stat succeeds. -/
def FormatUploadedFilesInfo (statFS : GoStr → Option Nat) (opts : AgentOptions) :
    List JVal :=
  if opts.uploadFiles.length = 0 then []
  else
    opts.uploadFiles.foldl (fun uploadedFiles file =>
      match statFS file with
      | some size =>
        uploadedFiles ++ [JVal.obj
          [("name", JVal.str (goBase file)), ("size", JVal.num size),
            ("path", JVal.str file)]]
      | none => uploadedFiles) []

/-- The content-type field, defaulting to text/plain. -/
def contentTypeField (contentType : Option GoStr) : List (String × JVal) :=
  [("contentType", JVal.str (match contentType with
    | some ct => ct
    | none => gs "text/plain"))]

/-- The session fields, present when the service returned a session id;
the generated flag is true exactly when the caller supplied none. -/
def sessionFields (opts : AgentOptions) (sessionId : Option GoStr) :
    List (String × JVal) :=
  match sessionId with
  | some sid =>
    [("sessionId", JVal.str sid), ("generatedSessionId", JVal.boolean (opts.sessionID = []))]
  | none => []

/-- The memory field, when present. -/
def memoryField (memoryId : Option GoStr) : List (String × JVal) :=
  match memoryId with
  | some m => [("memoryId", JVal.str m)]
  | none => []

/-- The uploaded-files field, when files were configured and at least one
stat succeeded. -/
def uploadedFilesField (statFS : GoStr → Option Nat) (opts : AgentOptions) :
    List (String × JVal) :=
  if opts.uploadFiles.length > 0 ∧ (FormatUploadedFilesInfo statFS opts).length > 0 then
    [("uploadedFiles", JVal.arr (FormatUploadedFilesInfo statFS opts))]
  else []

/-- The citations field, present exactly when the citation list is
non-empty. -/
def citationsField (citations : List Citation) : List (String × JVal) :=
  if citations.length > 0 then
    [("citations", JVal.arr (formatCitationsForJSON citations))]
  else []

/-- The files field, present exactly when the file list is non-empty;
`none` when building the per-file metadata panics. -/
def filesField (files : List OutputFile) : Option (List (String × JVal)) :=
  if files.length > 0 then
    (mkFileInfos files).map (fun fileInfos => [("files", JVal.arr fileInfos)])
  else some []

/-- The control-handoff marker, present exactly when the flag is set. -/
def returnControlField (hasReturnControl : Bool) : List (String × JVal) :=
  if hasReturnControl then [("returnedControl", JVal.boolean true)] else []

/-- The saved-files field, present exactly when the materializer saved at
least one path. -/
def savedFilesField (savedFiles : List GoStr) : List (String × JVal) :=
  if savedFiles.length > 0 then
    [("savedFiles", JVal.arr (savedFiles.map JVal.str))]
  else []

/-- Model of `addResponseMetadata`: extend the base response, in insertion order,
with content type, session, memory, uploaded files, citations, files
metadata and the control flag; `none` when the files loop panics. -/
def addResponseMetadata (opts : AgentOptions) (statFS : GoStr → Option Nat)
    (contentType sessionId memoryId : Option GoStr) (citations : List Citation)
    (files : List OutputFile) (hasReturnControl : Bool)
    (response : List (String × JVal)) : Option (List (String × JVal)) :=
  (filesField files).map (fun ff =>
    response ++ contentTypeField contentType ++ sessionFields opts sessionId
      ++ memoryField memoryId ++ uploadedFilesField statFS opts
      ++ citationsField citations ++ ff ++ returnControlField hasReturnControl)

/-- The document built by `writeJSONResponse` from the reduced stream
result: the base content/streaming/timestamp fields, the metadata of
`addResponseMetadata`, and the saved-files list when non-empty. -/
def writeJSONResponseDoc (opts : AgentOptions) (statFS : GoStr → Option Nat)
    (now : GoStr) (contentType sessionId memoryId : Option GoStr)
    (textContent : Bytes) (citations : List Citation) (files : List OutputFile)
    (hasReturnControl : Bool) (savedFiles : List GoStr) :
    Option (List (String × JVal)) :=
  (addResponseMetadata opts statFS contentType sessionId memoryId citations files
      hasReturnControl
      [("content", JVal.str textContent),
        ("wasStreamingUsed", JVal.boolean opts.enableStreaming),
        ("timestamp", JVal.str now)]).map
    (fun response => response ++ savedFilesField savedFiles)

/-- Options for the C9 witness: structured output, nothing configured. -/
def c9wopts : AgentOptions :=
  ⟨[], false, gs "json", [], [], gs "CODE_INTERPRETER", false⟩

/-- The concrete document a fully empty reduced result produces: only the
four always-present fields. -/
def c9wdoc : List (String × JVal) :=
  [("content", JVal.str []), ("wasStreamingUsed", JVal.boolean false),
    ("timestamp", JVal.str (gs "t")), ("contentType", JVal.str (gs "text/plain"))]

/-- Options for the C10 materializer comparison. -/
def c10opts : AgentOptions :=
  ⟨[], false, gs "json", gs "o", [], gs "CODE_INTERPRETER", false⟩

/-- File system for the C10 materializer comparison. -/
def c10fs : FS :=
  { contents := fun _ => none
    writeFails := fun _ => false
    mkdirFails := false }

lemma processEvent_textResponse (s : StreamState) (e : StreamEvent) :
    (processEvent s e).textResponse =
      s.textResponse ++ (match e with | .chunk v => v.bytes | _ => []) := by
  cases e with
  | chunk v =>
    by_cases hb : v.bytes.length > 0 <;>
      cases hattr : v.attribution with
      | none => simp_all [processEvent, List.length_pos, List.eq_nil_of_length_eq_zero]
      | some attribution =>
        by_cases hc : attribution.citations.length > 0 <;>
          simp_all [processEvent, List.length_pos, Nat.pos_iff_ne_zero, List.length_eq_zero]
  | files fileList => by_cases h : fileList.length > 0 <;> simp_all [processEvent]
  | trace => simp [processEvent]
  | returnControl v => simp [processEvent]
  | unknown => simp [processEvent]

lemma processEvent_citations (s : StreamState) (e : StreamEvent) :
    (processEvent s e).citations =
      s.citations ++ (match e with
        | .chunk v => (match v.attribution with
          | some attribution => attribution.citations
          | none => [])
        | _ => []) := by
  cases e with
  | chunk v =>
    by_cases hb : v.bytes.length > 0 <;>
      cases hattr : v.attribution with
      | none => simp_all [processEvent]
      | some attribution =>
        by_cases hc : attribution.citations.length > 0 <;>
          simp_all [processEvent, Nat.pos_iff_ne_zero, List.length_eq_zero]
  | files fileList => by_cases h : fileList.length > 0 <;> simp_all [processEvent]
  | trace => simp [processEvent]
  | returnControl v => simp [processEvent]
  | unknown => simp [processEvent]

lemma processEvent_outputFiles (s : StreamState) (e : StreamEvent) :
    (processEvent s e).outputFiles =
      s.outputFiles ++ (match e with | .files fileList => fileList | _ => []) := by
  cases e with
  | chunk v =>
    by_cases hb : v.bytes.length > 0 <;>
      cases hattr : v.attribution with
      | none => simp_all [processEvent]
      | some attribution =>
        by_cases hc : attribution.citations.length > 0 <;> simp_all [processEvent]
  | files fileList =>
    by_cases h : fileList.length > 0 <;>
      simp_all [processEvent, Nat.pos_iff_ne_zero, List.length_eq_zero]
  | trace => simp [processEvent]
  | returnControl v => simp [processEvent]
  | unknown => simp [processEvent]

lemma foldl_textResponse (events : List StreamEvent) :
    ∀ s : StreamState,
      (events.foldl processEvent s).textResponse =
        s.textResponse ++ (chunkPayloads events).flatten := by
  induction events with
  | nil => intro s; simp [chunkPayloads]
  | cons e rest ih =>
    intro s
    rw [List.foldl_cons, ih, processEvent_textResponse]
    cases e <;> simp [chunkPayloads]

lemma foldl_citations (events : List StreamEvent) :
    ∀ s : StreamState,
      (events.foldl processEvent s).citations =
        s.citations ++ (citationPayloads events).flatten := by
  induction events with
  | nil => intro s; simp [citationPayloads]
  | cons e rest ih =>
    intro s
    rw [List.foldl_cons, ih, processEvent_citations]
    cases e <;> simp [citationPayloads]

lemma foldl_outputFiles (events : List StreamEvent) :
    ∀ s : StreamState,
      (events.foldl processEvent s).outputFiles =
        s.outputFiles ++ (filePayloads events).flatten := by
  induction events with
  | nil => intro s; simp [filePayloads]
  | cons e rest ih =>
    intro s
    rw [List.foldl_cons, ih, processEvent_outputFiles]
    cases e <;> simp [filePayloads]

lemma chunkPayloads_filter_passive (events : List StreamEvent) :
    chunkPayloads (events.filter (fun e => !isPassiveEvent e)) = chunkPayloads events := by
  induction events with
  | nil => rfl
  | cons e rest ih =>
    rw [List.filter_cons]
    cases e with
    | chunk v => rw [if_pos (by rfl)]; simp [chunkPayloads, ih]
    | files fileList => rw [if_pos (by rfl)]; simp [chunkPayloads, ih]
    | trace => rw [if_neg (by decide)]; simp [chunkPayloads, ih]
    | returnControl v => rw [if_neg (by simp [isPassiveEvent])]; simp [chunkPayloads, ih]
    | unknown => rw [if_neg (by decide)]; simp [chunkPayloads, ih]

lemma prepareLoop_ok (sniff : Bytes → GoStr) (fs : GoStr → Option Bytes) (useCase : GoStr) :
    ∀ (paths : List GoStr) (totalSize : Nat) (inputFiles : List InputFile) (reads : List GoStr),
      (∀ p ∈ paths, (fs p).isSome) →
      totalSize + totalUploadSize fs paths ≤ maxUploadSize →
      ∃ files, prepareLoop sniff fs useCase paths totalSize inputFiles reads =
        (.ok (inputFiles ++ files), reads ++ paths) := by
  intro paths
  induction paths with
  | nil => intro totalSize inputFiles reads _ _; exact ⟨[], by simp [prepareLoop]⟩
  | cons p rest ih =>
    intro totalSize inputFiles reads hex hbound
    obtain ⟨c, hc⟩ := Option.isSome_iff_exists.mp (hex p (by simp))
    have hsize : totalUploadSize fs (p :: rest) = c.length + totalUploadSize fs rest := by
      simp [totalUploadSize, hc]
    have hle : ¬ maxUploadSize < totalSize + c.length := by
      rw [hsize] at hbound; omega
    obtain ⟨files, hfiles⟩ :=
      ih (totalSize + c.length)
        (inputFiles ++ [{ name := goBase p, data := c,
                          mediaType := DetectMimeType sniff p c, useCase := useCase }])
        (reads ++ [p])
        (fun q hq => hex q (by simp [hq]))
        (by rw [hsize] at hbound; omega)
    refine ⟨{ name := goBase p, data := c,
              mediaType := DetectMimeType sniff p c, useCase := useCase } :: files, ?_⟩
    simp only [prepareLoop, hc, if_neg hle]
    rw [hfiles]
    simp

lemma prepareLoop_crossing (sniff : Bytes → GoStr) (fs : GoStr → Option Bytes)
    (useCase : GoStr) :
    ∀ (pre : List GoStr) (totalSize : Nat) (inputFiles : List InputFile) (reads : List GoStr)
      (p : GoStr) (post : List GoStr),
      (∀ q ∈ pre, (fs q).isSome) →
      (fs p).isSome →
      totalSize + totalUploadSize fs pre ≤ maxUploadSize →
      maxUploadSize < totalSize + totalUploadSize fs pre + ((fs p).getD []).length →
      prepareLoop sniff fs useCase (pre ++ p :: post) totalSize inputFiles reads =
        (.error (.sizeLimitExceeded
          (totalSize + totalUploadSize fs pre + ((fs p).getD []).length)), reads ++ pre) := by
  intro pre
  induction pre with
  | nil =>
    intro totalSize inputFiles reads p post _ hp _ hcross
    obtain ⟨c, hc⟩ := Option.isSome_iff_exists.mp hp
    simp only [totalUploadSize, List.map_nil, List.sum_nil, Nat.add_zero] at hcross ⊢
    simp only [List.nil_append, prepareLoop, hc]
    rw [if_pos (by simpa [hc] using hcross)]
    simp [hc]
  | cons q rest ih =>
    intro totalSize inputFiles reads p post hex hp hbound hcross
    obtain ⟨c, hc⟩ := Option.isSome_iff_exists.mp (hex q (by simp))
    have hsize : totalUploadSize fs (q :: rest) = c.length + totalUploadSize fs rest := by
      simp [totalUploadSize, hc]
    have hle : ¬ maxUploadSize < totalSize + c.length := by
      rw [hsize] at hbound; omega
    have := ih (totalSize + c.length)
      (inputFiles ++ [{ name := goBase q, data := c,
                        mediaType := DetectMimeType sniff q c, useCase := useCase }])
      (reads ++ [q]) p post
      (fun r hr => hex r (by simp [hr]))
      hp
      (by rw [hsize] at hbound; omega)
      (by rw [hsize] at hcross; convert hcross using 2; omega)
    simp only [List.cons_append, prepareLoop, hc, if_neg hle, List.append_eq]
    rw [this, hsize]
    refine congrArg₂ Prod.mk ?_ (by simp)
    exact congrArg Except.error (congrArg FileError.sizeLimitExceeded (by omega))

lemma takeWhile_of_not_contains (m : GoStr) (h : m.contains ';' = false) :
    m.takeWhile (fun c => c != ';') = m := by
  induction m with
  | nil => rfl
  | cons c rest ih =>
    simp only [List.contains_cons, Bool.or_eq_false_iff] at h
    have h1 : c ≠ ';' := by
      intro h2
      subst h2
      simpa using h.1
    simp [List.takeWhile_cons, bne_iff_ne, h1, ih h.2]

/-- C4: with every configured path readable, (a) upload assembly succeeds
when the file sizes sum to exactly 10 MiB, reading every file, and
(b) when the running total first exceeds 10 MiB at some file, assembly
returns a size-limit error, no list of partial results, and the contents
read are exactly the files before the one that crossed the limit. -/
theorem c4_upload_size_limit (sniff : Bytes → GoStr) (fs : GoStr → Option Bytes)
    (opts : AgentOptions)
    (hex : ∀ p ∈ opts.uploadFiles, (fs p).isSome) :
    (totalUploadSize fs opts.uploadFiles = maxUploadSize →
      ∃ files, PrepareInputFiles sniff fs opts = (.ok files, opts.uploadFiles))
    ∧ (∀ (pre : List GoStr) (p : GoStr) (post : List GoStr),
        opts.uploadFiles = pre ++ p :: post →
        totalUploadSize fs pre ≤ maxUploadSize →
        maxUploadSize < totalUploadSize fs pre + ((fs p).getD []).length →
        PrepareInputFiles sniff fs opts =
          (.error (.sizeLimitExceeded
            (totalUploadSize fs pre + ((fs p).getD []).length)), pre)) := by
  constructor
  · intro hsum
    rcases hpaths : opts.uploadFiles with _ | ⟨q, qs⟩
    · rw [hpaths] at hsum
      simp [totalUploadSize, maxUploadSize] at hsum
    · rw [hpaths] at hex hsum
      obtain ⟨files, hfiles⟩ :=
        prepareLoop_ok sniff fs opts.fileUseCase (q :: qs) 0 [] [] hex (by omega)
      refine ⟨files, ?_⟩
      rw [PrepareInputFiles, hpaths, if_neg (by simp)]
      simpa using hfiles
  · intro pre p post hsplit hbound hcross
    have h := prepareLoop_crossing sniff fs opts.fileUseCase pre 0 [] [] p post
      (fun q hq => hex q (by rw [hsplit]; exact List.mem_append_left _ hq))
      (hex p (by rw [hsplit]; simp))
      (by omega) (by omega)
    rw [PrepareInputFiles, hsplit, if_neg (by simp)]
    simpa using h

/-- Witness for C4: a 10 MiB file assembles successfully; a 1-byte file
followed by a 10 MiB file fails at the second file with a size-limit
error at 10 MiB + 1 bytes, having read only the first file. -/
theorem c4_witness :
    (∃ files, PrepareInputFiles c4sniff c4fs c4optsA = (.ok files, [gs "a"]))
    ∧ PrepareInputFiles c4sniff c4fs c4optsB =
        (.error (.sizeLimitExceeded (1 + maxUploadSize)), [gs "b"]) := by
  have hexA : ∀ p ∈ c4optsA.uploadFiles, (c4fs p).isSome := by
    intro p hp
    have hpa : p = gs "a" := by simpa [c4optsA] using hp
    subst hpa
    rfl
  have hexB : ∀ p ∈ c4optsB.uploadFiles, (c4fs p).isSome := by
    intro p hp
    have hpb : p = gs "b" ∨ p = gs "c" := by simpa [c4optsB, c4optsA] using hp
    rcases hpb with hpb | hpb <;> (subst hpb; rfl)
  have hb : c4fs (gs "b") = some ['y'] := rfl
  have hc : c4fs (gs "c") = some (List.replicate maxUploadSize 'x') := rfl
  constructor
  · refine (c4_upload_size_limit c4sniff c4fs c4optsA hexA).1 ?_
    have ha : c4fs (gs "a") = some (List.replicate maxUploadSize 'x') := rfl
    simp [c4optsA, totalUploadSize, ha]
  · have h := (c4_upload_size_limit c4sniff c4fs c4optsB hexB).2 [gs "b"] (gs "c") []
      (by simp [c4optsB, c4optsA])
      (by simp [totalUploadSize, hb]; norm_num [maxUploadSize])
      (by simp [totalUploadSize, hb, hc])
    rw [h]
    simp [totalUploadSize, hb, hc]

/-- C5: the classifier sniffs the content first; exactly when the sniff
yields the generic unknown-binary type it consults the lowercased
extension table, keeping the sniff result for unmapped extensions; when
the sniff yields anything else the result is independent of the path
(no extension fallback), textual results are cut at the first semicolon
separator, and non-textual results are returned unchanged. -/
theorem c5_classifier_sniff_then_extension
    (sniff : Bytes → GoStr) (filePath : GoStr) (content : Bytes) :
    (sniff content = octetStream →
      (∀ t, extMimeTable (toLowerStr (goExt filePath)) = some t →
          DetectMimeType sniff filePath content = t)
      ∧ (extMimeTable (toLowerStr (goExt filePath)) = none →
          DetectMimeType sniff filePath content = octetStream))
    ∧ (sniff content ≠ octetStream →
      (∀ otherPath, DetectMimeType sniff otherPath content =
          DetectMimeType sniff filePath content)
      ∧ ((gs "text/").isPrefixOf (sniff content) = true →
          DetectMimeType sniff filePath content =
            (sniff content).takeWhile (fun c => c != ';'))
      ∧ ((gs "text/").isPrefixOf (sniff content) = false →
          DetectMimeType sniff filePath content = sniff content)) := by
  constructor
  · intro hoct
    constructor
    · intro t ht
      unfold DetectMimeType
      rw [if_pos hoct, ht, Option.getD_some]
    · intro ht
      unfold DetectMimeType
      rw [if_pos hoct, ht, Option.getD_none, hoct]
  · intro hoct
    refine ⟨fun otherPath => by unfold DetectMimeType; rw [if_neg hoct, if_neg hoct], ?_, ?_⟩
    · intro htext
      unfold DetectMimeType
      rw [if_neg hoct]
      by_cases hsemi : (sniff content).contains ';' = true
      · rw [if_pos ⟨htext, hsemi⟩]
      · rw [if_neg (fun h => hsemi h.2),
          takeWhile_of_not_contains _ (by simpa using hsemi)]
    · intro htext
      unfold DetectMimeType
      rw [if_neg hoct, if_neg (by rw [htext]; simp)]

/-- Witness for C5: an unknown-binary sniff with a mixed-case csv
extension falls back to the table, and a textual sniff with a charset
parameter is cut at the semicolon regardless of the path. -/
theorem c5_witness :
    DetectMimeType (fun _ => octetStream) (gs "report.CSV") [] = gs "text/csv"
    ∧ DetectMimeType (fun _ => gs "text/html; charset=utf-8") (gs "report.CSV") [] =
        gs "text/html" := by
  constructor
  · exact (c5_classifier_sniff_then_extension (fun _ => octetStream)
      (gs "report.CSV") []).1 rfl |>.1 (gs "text/csv") (by decide)
  · have h := (c5_classifier_sniff_then_extension
      (fun _ => gs "text/html; charset=utf-8") (gs "report.CSV") []).2 (by decide)
    rw [h.2.1 (by decide)]
    decide

/-- C6: classification is a pure function of the path and content: two
calls on identical arguments (and the same sniffer) return identical
results. -/
theorem c6_classifier_deterministic (sniff : Bytes → GoStr)
    (filePath : GoStr) (content : Bytes) (filePath₂ : GoStr) (content₂ : Bytes)
    (hp : filePath = filePath₂) (hc : content = content₂) :
    DetectMimeType sniff filePath content = DetectMimeType sniff filePath₂ content₂ := by
  subst hp
  subst hc
  rfl

/-- Witness for C6: two identical calls on a concrete csv file agree. -/
theorem c6_witness :
    DetectMimeType (fun _ => octetStream) (gs "a.csv") [] =
      DetectMimeType (fun _ => octetStream) (gs "a.csv") [] :=
  c6_classifier_deterministic (fun _ => octetStream) (gs "a.csv") [] (gs "a.csv") [] rfl rfl

/-- C1: for every event sequence, the accumulated text returned by
`ProcessStream` is the ordered concatenation of the byte payloads of its
`TextChunk` events (empty payloads contributing nothing), it is unchanged
when all `Trace`, `ControlHandoff` and `Unknown` events are removed, and
more generally any re-interleaving that preserves the chunk payload
sequence leaves the text unchanged. -/
theorem c1_reducer_text_is_chunk_concatenation (events : List StreamEvent) :
    (ProcessStream ⟨events, none⟩).1.textResponse = (chunkPayloads events).flatten
    ∧ (ProcessStream ⟨events.filter (fun e => !isPassiveEvent e), none⟩).1.textResponse
        = (ProcessStream ⟨events, none⟩).1.textResponse
    ∧ ∀ events₂ : List StreamEvent, chunkPayloads events₂ = chunkPayloads events →
        (ProcessStream ⟨events₂, none⟩).1.textResponse
          = (ProcessStream ⟨events, none⟩).1.textResponse := by
  have h : ∀ evs : List StreamEvent,
      (ProcessStream ⟨evs, none⟩).1.textResponse = (chunkPayloads evs).flatten := by
    intro evs
    simp [ProcessStream, foldl_textResponse, StreamState.initial]
  refine ⟨h events, ?_, ?_⟩
  · rw [h, h, chunkPayloads_filter_passive]
  · intro events₂ he
    rw [h, h, he]

/-- Witness for C1: interleaving a trace event between two chunks leaves
the accumulated text unchanged. -/
theorem c1_witness :
    chunkPayloads [.chunk ⟨gs "Hello, ", none⟩, .trace, .chunk ⟨gs "world!", none⟩]
        = chunkPayloads [.chunk ⟨gs "Hello, ", none⟩, .chunk ⟨gs "world!", none⟩]
    ∧ (ProcessStream ⟨[.chunk ⟨gs "Hello, ", none⟩, .trace, .chunk ⟨gs "world!", none⟩], none⟩).1.textResponse
        = (ProcessStream ⟨[.chunk ⟨gs "Hello, ", none⟩, .chunk ⟨gs "world!", none⟩], none⟩).1.textResponse :=
  ⟨by decide,
    (c1_reducer_text_is_chunk_concatenation
        [.chunk ⟨gs "Hello, ", none⟩, .chunk ⟨gs "world!", none⟩]).2.2
      [.chunk ⟨gs "Hello, ", none⟩, .trace, .chunk ⟨gs "world!", none⟩] (by decide)⟩

/-- C2: when the transport reports a terminal error after end-of-stream,
`ProcessStream` returns a non-nil translated error (the failure wrapped
as an error-during-streaming message and rewritten by `HandleAWSError`)
together with exactly the accumulators a successful run over the same
events would have produced: partial text, citations, files and the
control-handoff flag are kept, not discarded. -/
theorem c2_terminal_error_keeps_partial_accumulators
    (events : List StreamEvent) (err : GoStr) :
    ProcessStream ⟨events, some err⟩ =
      ((ProcessStream ⟨events, none⟩).1,
        some (HandleAWSError (wrapErr "error during streaming: " err))) := by
  simp [ProcessStream]

/-- C3: the citation list returned by `ProcessStream` is exactly the
arrival-order concatenation of the citation lists carried by chunk
attributions, and the output-file list is exactly the arrival-order
concatenation of the `GeneratedFiles` batches; nothing is reordered,
deduplicated or dropped. -/
theorem c3_citation_and_file_arrival_order (events : List StreamEvent) :
    (ProcessStream ⟨events, none⟩).1.citations = (citationPayloads events).flatten
    ∧ (ProcessStream ⟨events, none⟩).1.outputFiles = (filePayloads events).flatten := by
  constructor <;>
    simp [ProcessStream, foldl_citations, foldl_outputFiles, StreamState.initial]

lemma goExt_append_eq (s : GoStr) : ∃ stem, stem ++ goExt s = s := by
  unfold goExt
  cases h : s.reverse.dropWhile (fun c => c != '/' && c != '.') with
  | nil => exact ⟨s, by simp⟩
  | cons stopChar rest =>
    dsimp only
    by_cases hc : stopChar = '.'
    · subst hc
      rw [if_pos rfl]
      refine ⟨rest.reverse, ?_⟩
      have hsplit : s.reverse.takeWhile (fun c => c != '/' && c != '.') ++ ('.' :: rest)
          = s.reverse := by
        rw [← h]
        exact List.takeWhile_append_dropWhile _ _
      calc rest.reverse ++
            '.' :: (s.reverse.takeWhile (fun c => c != '/' && c != '.')).reverse
          = (s.reverse.takeWhile (fun c => c != '/' && c != '.') ++ ('.' :: rest)).reverse := by
            simp
        _ = s := by rw [hsplit, List.reverse_reverse]
    · rw [if_neg hc]
      exact ⟨s, by simp⟩

lemma trimSuffix_goExt (s : GoStr) : trimSuffix s (goExt s) ++ goExt s = s := by
  obtain ⟨stem, hstem⟩ := goExt_append_eq s
  generalize hgen : goExt s = e at hstem ⊢
  have hsuf : e.isSuffixOf s = true := List.isSuffixOf_iff_suffix.mpr ⟨stem, hstem⟩
  rw [trimSuffix, if_pos hsuf, ← hstem]
  have hlen : (stem ++ e).length - e.length = stem.length := by simp
  rw [hlen, List.take_left]

/-- Splitting the write loop at a list decomposition: run the front, and
if it did not fail, continue at the shifted index on its final state. -/
lemma handleLoop_append (dir : GoStr) (l₁ l₂ : List OutputFile) :
    ∀ (i : Nat) (savedFiles : List GoStr) (fs : FS),
      handleLoop dir i (l₁ ++ l₂) savedFiles fs =
        match handleLoop dir i l₁ savedFiles fs with
        | (saved, none, fs₂) => handleLoop dir (i + l₁.length) l₂ saved fs₂
        | (saved, some e, fs₂) => (saved, some e, fs₂) := by
  induction l₁ with
  | nil => intro i savedFiles fs; simp [handleLoop]
  | cons file rest ih =>
    intro i savedFiles fs
    cases hname : file.name with
    | none =>
      simp only [List.cons_append, handleLoop, hname, List.append_eq, ih, List.length_cons]
      rw [show i + (rest.length + 1) = i + 1 + rest.length from by omega]
    | some name =>
      by_cases hw : fs.writeFails (outputPathFor dir i name fs) = true
      · simp only [List.cons_append, handleLoop, hname, if_pos hw]
      · simp only [List.cons_append, handleLoop, hname, if_neg hw, List.append_eq, ih,
          List.length_cons]
        rw [show i + (rest.length + 1) = i + 1 + rest.length from by omega]

lemma length_ne_imp_ne {l₁ l₂ : GoStr} (h : l₁.length ≠ l₂.length) : l₁ ≠ l₂ :=
  fun he => h (he ▸ rfl)

/-- C8: if the write loop succeeds on a front segment and the write of
the next file fails, the materializer returns exactly the paths saved for
the front segment together with the save error for that file's path, on
the file system produced by the front segment alone: later files are
never attempted and earlier writes are kept. -/
theorem c8_write_failure_keeps_earlier_saves
    (opts : AgentOptions) (fs : FS) (pre : List OutputFile) (f : OutputFile)
    (post : List OutputFile) (name : GoStr) (saved : List GoStr) (fs₁ : FS)
    (hdir : opts.filesOutputDir ≠ [])
    (hmk : fs.mkdirFails = false)
    (hpre : handleLoop opts.filesOutputDir 0 pre [] fs = (saved, none, fs₁))
    (hname : f.name = some name)
    (hfail : fs₁.writeFails (outputPathFor opts.filesOutputDir pre.length name fs₁) = true) :
    HandleFileOutput opts (pre ++ f :: post) fs =
      (saved,
        some (.saveFailed (outputPathFor opts.filesOutputDir pre.length name fs₁)),
        fs₁) := by
  rw [HandleFileOutput, if_neg (by simp [hdir]), if_neg (by simp [hmk]),
    handleLoop_append, hpre]
  dsimp only
  simp only [Nat.zero_add, handleLoop, hname, if_pos hfail]

lemma join_ne_of_ne (dir : GoStr) {x y : GoStr} (h : x ≠ y) :
    dir ++ gs "/" ++ x ≠ dir ++ gs "/" ++ y := by
  intro he
  exact h (List.append_cancel_left he)

/-- Evaluation of the write loop on two named files when no write
fails. -/
lemma handleLoop_two (dir : GoStr) (n1 n2 : GoStr) (t1 t2 : Option GoStr)
    (c1 c2 : Bytes) (fs : FS) (hw : ∀ p, fs.writeFails p = false) :
    handleLoop dir 0 [⟨some n1, c1, t1⟩, ⟨some n2, c2, t2⟩] [] fs =
      ([outputPathFor dir 0 n1 fs,
        outputPathFor dir 1 n2 (fs.write (outputPathFor dir 0 n1 fs) c1)],
        none,
        (fs.write (outputPathFor dir 0 n1 fs) c1).write
          (outputPathFor dir 1 n2 (fs.write (outputPathFor dir 0 n1 fs) c1)) c2) := by
  simp only [handleLoop, FS.write, hw, Bool.false_eq_true, if_false, List.nil_append,
    List.singleton_append, Nat.zero_add]

/-- Counterexample for C7 as universally stated: in a three-file
materialization whose first two files share the base name d_3.csv, the
first pair member is saved at o/d_3.csv, yet after materialization that
path holds the third file's bytes: the third file's collision rename
(d.csv exists on disk, sequence index 3) resolves to o/d_3.csv and
overwrites the first pair member, so the pair does not survive with its
original contents intact. -/
theorem c7_counterexample :
    (HandleFileOutput c7opts c7files c7fs).1 =
        [gs "o/d_3.csv", gs "o/d_3_2.csv", gs "o/d_3.csv"]
    ∧ (HandleFileOutput c7opts c7files c7fs).2.1 = none
    ∧ (HandleFileOutput c7opts c7files c7fs).2.2.contents (gs "o/d_3.csv") = some ['3']
    ∧ ¬ (HandleFileOutput c7opts c7files c7fs).2.2.contents (gs "o/d_3.csv") = some ['1'] := by
  decide

/-- C7 amended: in a materialization of exactly two files whose declared
names resolve to the same base name (no other files involved), with the
directory set and all writes succeeding, the first file is written at its
own path, the second is saved under the name with its 1-based sequence
index 2 inserted before the extension, the two paths differ, and
afterwards both files hold their original contents. -/
theorem c7_amended_two_file_collision
    (opts : AgentOptions) (n1 n2 : GoStr) (t1 t2 : Option GoStr) (c1 c2 : Bytes) (fs : FS)
    (hdir : opts.filesOutputDir ≠ [])
    (hmk : fs.mkdirFails = false)
    (hw : ∀ p, fs.writeFails p = false)
    (hbase : goBase n1 = goBase n2) :
    HandleFileOutput opts [⟨some n1, c1, t1⟩, ⟨some n2, c2, t2⟩] fs =
      ([outputPathFor opts.filesOutputDir 0 n1 fs,
        opts.filesOutputDir ++ gs "/" ++
          (trimSuffix (goBase n2) (goExt (goBase n2)) ++ gs "_2" ++ goExt (goBase n2))],
        none,
        (fs.write (outputPathFor opts.filesOutputDir 0 n1 fs) c1).write
          (opts.filesOutputDir ++ gs "/" ++
            (trimSuffix (goBase n2) (goExt (goBase n2)) ++ gs "_2" ++ goExt (goBase n2))) c2)
    ∧ outputPathFor opts.filesOutputDir 0 n1 fs ≠
        opts.filesOutputDir ++ gs "/" ++
          (trimSuffix (goBase n2) (goExt (goBase n2)) ++ gs "_2" ++ goExt (goBase n2))
    ∧ ((fs.write (outputPathFor opts.filesOutputDir 0 n1 fs) c1).write
          (opts.filesOutputDir ++ gs "/" ++
            (trimSuffix (goBase n2) (goExt (goBase n2)) ++ gs "_2" ++ goExt (goBase n2)))
          c2).contents (outputPathFor opts.filesOutputDir 0 n1 fs) = some c1
    ∧ ((fs.write (outputPathFor opts.filesOutputDir 0 n1 fs) c1).write
          (opts.filesOutputDir ++ gs "/" ++
            (trimSuffix (goBase n2) (goExt (goBase n2)) ++ gs "_2" ++ goExt (goBase n2)))
          c2).contents
        (opts.filesOutputDir ++ gs "/" ++
          (trimSuffix (goBase n2) (goExt (goBase n2)) ++ gs "_2" ++ goExt (goBase n2)))
        = some c2 := by
  have hse2 : trimSuffix (goBase n2) (goExt (goBase n2)) ++ goExt (goBase n2) = goBase n2 :=
    trimSuffix_goExt (goBase n2)
  have hreprOne : (Nat.repr (0 + 1)).data = ['1'] := rfl
  have hreprTwo : (Nat.repr (1 + 1)).data = ['2'] := rfl
  have hlenOne : (gs "_").length = 1 := rfl
  have hlenTwo : (gs "_2").length = 2 := rfl
  -- second file's path: the first write makes the plain joined path exist
  have hexists :
      ((fs.write (outputPathFor opts.filesOutputDir 0 n1 fs) c1).contents
        (opts.filesOutputDir ++ gs "/" ++ goBase n2)).isSome = true := by
    rw [← hbase, outputPathFor]
    by_cases hex :
        (fs.contents (opts.filesOutputDir ++ gs "/" ++ goBase n1)).isSome = true
    · rw [if_pos hex]
      simp only [FS.write]
      rw [if_neg ?hne1]
      · exact hex
      case hne1 =>
        apply join_ne_of_ne
        apply length_ne_imp_ne
        have h1 : (trimSuffix (goBase n1) (goExt (goBase n1)) ++ goExt (goBase n1)).length
            = (goBase n1).length := by rw [trimSuffix_goExt]
        simp only [List.length_append, hreprOne, List.length_singleton, hlenOne] at h1 ⊢
        omega
    · rw [if_neg hex]
      simp only [FS.write]
      simp
  have hq2 :
      outputPathFor opts.filesOutputDir 1 n2
          (fs.write (outputPathFor opts.filesOutputDir 0 n1 fs) c1) =
        opts.filesOutputDir ++ gs "/" ++
          (trimSuffix (goBase n2) (goExt (goBase n2)) ++ gs "_2" ++ goExt (goBase n2)) := by
    rw [outputPathFor, if_pos hexists, hreprTwo]
    simp only [List.append_assoc]
    rfl
  have hne : outputPathFor opts.filesOutputDir 0 n1 fs ≠
      opts.filesOutputDir ++ gs "/" ++
        (trimSuffix (goBase n2) (goExt (goBase n2)) ++ gs "_2" ++ goExt (goBase n2)) := by
    rw [outputPathFor]
    by_cases hex :
        (fs.contents (opts.filesOutputDir ++ gs "/" ++ goBase n1)).isSome = true
    · rw [if_pos hex, hbase]
      apply join_ne_of_ne
      intro he
      rw [hreprOne] at he
      have h0 : ((trimSuffix (goBase n2) (goExt (goBase n2)) ++ gs "_") ++ ['1']).length
          = (trimSuffix (goBase n2) (goExt (goBase n2)) ++ gs "_2").length := by
        simp only [List.length_append, List.length_singleton, hlenOne, hlenTwo]
      have hA := (List.append_inj he h0).1
      rw [List.append_assoc] at hA
      have hB : (['_', '1'] : GoStr) = ['_', '2'] := List.append_cancel_left hA
      simp at hB
    · rw [if_neg hex, hbase]
      apply join_ne_of_ne
      apply length_ne_imp_ne
      have h1 : (trimSuffix (goBase n2) (goExt (goBase n2)) ++ goExt (goBase n2)).length
          = (goBase n2).length := by rw [hse2]
      simp only [List.length_append, hlenTwo] at h1 ⊢
      omega
  have hrun : HandleFileOutput opts [⟨some n1, c1, t1⟩, ⟨some n2, c2, t2⟩] fs =
      ([outputPathFor opts.filesOutputDir 0 n1 fs,
        opts.filesOutputDir ++ gs "/" ++
          (trimSuffix (goBase n2) (goExt (goBase n2)) ++ gs "_2" ++ goExt (goBase n2))],
        none,
        (fs.write (outputPathFor opts.filesOutputDir 0 n1 fs) c1).write
          (opts.filesOutputDir ++ gs "/" ++
            (trimSuffix (goBase n2) (goExt (goBase n2)) ++ gs "_2" ++ goExt (goBase n2)))
          c2) := by
    rw [HandleFileOutput, if_neg (by simp [hdir]), if_neg (by simp [hmk]),
      handleLoop_two opts.filesOutputDir n1 n2 t1 t2 c1 c2 fs hw, hq2]
  refine ⟨hrun, hne, ?_, ?_⟩
  · simp only [FS.write]
    rw [if_neg hne]
    simp
  · simp only [FS.write]
    simp

/-- Witness for the amended C7: two files both named report.csv written
into an empty directory land at out/report.csv and out/report_2.csv with
their own contents. -/
theorem c7_witness :
    HandleFileOutput c7wopts
        [⟨some (gs "report.csv"), ['1'], none⟩, ⟨some (gs "report.csv"), ['2'], none⟩]
        c7wfs =
      ([gs "out/report.csv", gs "out/report_2.csv"], none,
        (c7wfs.write (gs "out/report.csv") ['1']).write (gs "out/report_2.csv") ['2'])
    ∧ (gs "out/report.csv" : GoStr) ≠ gs "out/report_2.csv"
    ∧ ((c7wfs.write (gs "out/report.csv") ['1']).write
        (gs "out/report_2.csv") ['2']).contents (gs "out/report.csv") = some ['1']
    ∧ ((c7wfs.write (gs "out/report.csv") ['1']).write
        (gs "out/report_2.csv") ['2']).contents (gs "out/report_2.csv") = some ['2'] :=
  c7_amended_two_file_collision c7wopts (gs "report.csv") (gs "report.csv") none none
    ['1'] ['2'] c7wfs (by decide) rfl (fun _ => rfl) rfl

/-- Witness for C8: of three files, the second hits a write failure; the
first file's path is returned as saved, the error names the second
file's path, and the third file is never written. -/
theorem c8_witness :
    HandleFileOutput c8opts
        [⟨some (gs "a.txt"), ['1'], none⟩, ⟨some (gs "b.txt"), ['2'], none⟩,
          ⟨some (gs "c.txt"), ['3'], none⟩] c8fs =
      ([gs "o/a.txt"], some (.saveFailed (gs "o/b.txt")),
        c8fs.write (gs "o/a.txt") ['1']) := by
  have h := c8_write_failure_keeps_earlier_saves c8opts c8fs
    [⟨some (gs "a.txt"), ['1'], none⟩] ⟨some (gs "b.txt"), ['2'], none⟩
    [⟨some (gs "c.txt"), ['3'], none⟩] (gs "b.txt")
    [gs "o/a.txt"] (c8fs.write (gs "o/a.txt") ['1'])
    (by decide) rfl rfl rfl rfl
  exact h

lemma getKey_append (l₁ l₂ : List (String × JVal)) (key : String) :
    getKey (l₁ ++ l₂) key = (getKey l₁ key).or (getKey l₂ key) := by
  rw [getKey, List.find?_append]
  cases h : l₁.find? (fun kv => kv.1 == key) <;> simp [getKey, h]

lemma getKey_base (textContent : Bytes) (streaming : Bool) (now : GoStr) (key : String)
    (h1 : ("content" == key) = false) (h2 : ("wasStreamingUsed" == key) = false)
    (h3 : ("timestamp" == key) = false) :
    getKey [("content", JVal.str textContent), ("wasStreamingUsed", JVal.boolean streaming),
      ("timestamp", JVal.str now)] key = none := by
  simp [getKey, List.find?, h1, h2, h3]

lemma getKey_contentTypeField (contentType : Option GoStr) (key : String)
    (h : ("contentType" == key) = false) :
    getKey (contentTypeField contentType) key = none := by
  simp [getKey, contentTypeField, List.find?, h]

lemma getKey_sessionFields (opts : AgentOptions) (sessionId : Option GoStr) (key : String)
    (h1 : ("sessionId" == key) = false) (h2 : ("generatedSessionId" == key) = false) :
    getKey (sessionFields opts sessionId) key = none := by
  cases sessionId <;> simp [getKey, sessionFields, List.find?, h1, h2]

lemma getKey_memoryField (memoryId : Option GoStr) (key : String)
    (h : ("memoryId" == key) = false) :
    getKey (memoryField memoryId) key = none := by
  cases memoryId <;> simp [getKey, memoryField, List.find?, h]

lemma getKey_uploadedFilesField (statFS : GoStr → Option Nat) (opts : AgentOptions)
    (key : String) (h : ("uploadedFiles" == key) = false) :
    getKey (uploadedFilesField statFS opts) key = none := by
  rw [uploadedFilesField]
  split <;> simp [getKey, List.find?, h]

lemma getKey_citationsField_ne (citations : List Citation) (key : String)
    (h : ("citations" == key) = false) :
    getKey (citationsField citations) key = none := by
  rw [citationsField]
  split <;> simp [getKey, List.find?, h]

lemma getKey_citationsField_self (citations : List Citation) :
    (getKey (citationsField citations) "citations").isSome = true ↔ citations ≠ [] := by
  rw [citationsField]
  split <;> rename_i hlen
  · simp only [getKey, List.find?]
    have : (("citations" : String) == "citations") = true := by simp
    simp [this]
    exact List.ne_nil_of_length_pos hlen
  · have hnil : citations = [] := List.eq_nil_of_length_eq_zero (by omega)
    subst hnil
    simp [getKey]

lemma getKey_returnControlField_ne (hasReturnControl : Bool) (key : String)
    (h : ("returnedControl" == key) = false) :
    getKey (returnControlField hasReturnControl) key = none := by
  rw [returnControlField]
  split <;> simp [getKey, List.find?, h]

lemma getKey_returnControlField_self (hasReturnControl : Bool) :
    (getKey (returnControlField hasReturnControl) "returnedControl").isSome = true
      ↔ hasReturnControl = true := by
  rw [returnControlField]
  cases hasReturnControl <;> simp [getKey, List.find?]

lemma getKey_savedFilesField_ne (savedFiles : List GoStr) (key : String)
    (h : ("savedFiles" == key) = false) :
    getKey (savedFilesField savedFiles) key = none := by
  rw [savedFilesField]
  split <;> simp [getKey, List.find?, h]

lemma getKey_savedFilesField_self (savedFiles : List GoStr) :
    (getKey (savedFilesField savedFiles) "savedFiles").isSome = true ↔ savedFiles ≠ [] := by
  rw [savedFilesField]
  split <;> rename_i hlen
  · simp [getKey, List.find?]
    exact List.ne_nil_of_length_pos hlen
  · have hnil : savedFiles = [] := List.eq_nil_of_length_eq_zero (by omega)
    subst hnil
    simp [getKey]

lemma filesField_ne (files : List OutputFile) (ff : List (String × JVal)) (key : String)
    (hff : filesField files = some ff) (h : ("files" == key) = false) :
    getKey ff key = none := by
  rw [filesField] at hff
  split at hff
  · cases hm : mkFileInfos files with
    | none => rw [hm] at hff; simp at hff
    | some fileInfos =>
      rw [hm] at hff
      simp at hff
      subst hff
      simp [getKey, List.find?, h]
  · simp at hff
    subst hff
    rfl

lemma filesField_self (files : List OutputFile) (ff : List (String × JVal))
    (hff : filesField files = some ff) :
    ((getKey ff "files").isSome = true ↔ files ≠ []) := by
  rw [filesField] at hff
  split at hff <;> rename_i hlen
  · cases hm : mkFileInfos files with
    | none => rw [hm] at hff; simp at hff
    | some fileInfos =>
      rw [hm] at hff
      simp at hff
      subst hff
      simp [getKey, List.find?]
      exact List.ne_nil_of_length_pos hlen
  · simp at hff
    subst hff
    have hnil : files = [] := List.eq_nil_of_length_eq_zero (by omega)
    subst hnil
    simp [getKey]

/-- The lookup of any key missing from every always-present block of the
metadata chain reduces to the lookup in the four optional blocks. -/
lemma getKey_doc (opts : AgentOptions) (statFS : GoStr → Option Nat) (now : GoStr)
    (contentType sessionId memoryId : Option GoStr) (textContent : Bytes)
    (citations : List Citation) (ff : List (String × JVal)) (hasReturnControl : Bool)
    (savedFiles : List GoStr) (key : String)
    (h1 : ("content" == key) = false) (h2 : ("wasStreamingUsed" == key) = false)
    (h3 : ("timestamp" == key) = false) (h4 : ("contentType" == key) = false)
    (h5 : ("sessionId" == key) = false) (h6 : ("generatedSessionId" == key) = false)
    (h7 : ("memoryId" == key) = false) (h8 : ("uploadedFiles" == key) = false) :
    getKey ([("content", JVal.str textContent),
        ("wasStreamingUsed", JVal.boolean opts.enableStreaming),
        ("timestamp", JVal.str now)] ++ contentTypeField contentType
      ++ sessionFields opts sessionId ++ memoryField memoryId
      ++ uploadedFilesField statFS opts ++ citationsField citations ++ ff
      ++ returnControlField hasReturnControl ++ savedFilesField savedFiles) key =
      (((getKey (citationsField citations) key).or (getKey ff key)).or
        (getKey (returnControlField hasReturnControl) key)).or
        (getKey (savedFilesField savedFiles) key) := by
  simp only [getKey_append, getKey_base _ _ _ _ h1 h2 h3, getKey_contentTypeField _ _ h4,
    getKey_sessionFields _ _ _ h5 h6, getKey_memoryField _ _ h7,
    getKey_uploadedFilesField _ _ _ h8, Option.none_or]

/-- C9: in structured mode, when the reduced result has no citations, no
generated files, no saved files and no control handoff, the document
exists and contains none of the keys citations, files, savedFiles and
returnedControl; and whenever the document exists, each of those keys is
present exactly when its data is non-empty (respectively, when the
handoff flag is set). -/
theorem c9_structured_optional_fields
    (opts : AgentOptions) (statFS : GoStr → Option Nat) (now : GoStr)
    (contentType sessionId memoryId : Option GoStr) (textContent : Bytes)
    (citations : List Citation) (files : List OutputFile) (hasReturnControl : Bool)
    (savedFiles : List GoStr) :
    (citations = [] → files = [] → savedFiles = [] → hasReturnControl = false →
      ∃ doc, writeJSONResponseDoc opts statFS now contentType sessionId memoryId
          textContent citations files hasReturnControl savedFiles = some doc
        ∧ getKey doc "citations" = none ∧ getKey doc "files" = none
        ∧ getKey doc "savedFiles" = none ∧ getKey doc "returnedControl" = none)
    ∧ (∀ doc, writeJSONResponseDoc opts statFS now contentType sessionId memoryId
          textContent citations files hasReturnControl savedFiles = some doc →
        (((getKey doc "citations").isSome = true ↔ citations ≠ [])
        ∧ ((getKey doc "files").isSome = true ↔ files ≠ [])
        ∧ ((getKey doc "savedFiles").isSome = true ↔ savedFiles ≠ [])
        ∧ ((getKey doc "returnedControl").isSome = true ↔ hasReturnControl = true))) := by
  constructor
  · intro hcit hfiles hsaved hrc
    subst hcit
    subst hfiles
    subst hsaved
    subst hrc
    refine ⟨_, rfl, ?_, ?_, ?_, ?_⟩ <;>
      · dsimp only
        rw [getKey_doc _ _ _ _ _ _ _ _ _ _ _ _ (by decide) (by decide) (by decide) (by decide)
          (by decide) (by decide) (by decide) (by decide)]
        rfl
  · intro doc hdoc
    rw [writeJSONResponseDoc, addResponseMetadata] at hdoc
    cases hff : filesField files with
    | none =>
      rw [hff] at hdoc
      simp at hdoc
    | some ff =>
      rw [hff] at hdoc
      rw [Option.map_some', Option.map_some'] at hdoc
      have hdocEq := Option.some.inj hdoc
      subst hdocEq
      refine ⟨?_, ?_, ?_, ?_⟩ <;> dsimp only
      · rw [getKey_doc _ _ _ _ _ _ _ _ _ _ _ _ (by decide) (by decide)
          (by decide) (by decide) (by decide) (by decide) (by decide) (by decide),
          filesField_ne _ _ _ hff (by decide), getKey_returnControlField_ne _ _ (by decide),
          getKey_savedFilesField_ne _ _ (by decide), Option.or_none, Option.or_none,
          Option.or_none]
        exact getKey_citationsField_self citations
      · rw [getKey_doc _ _ _ _ _ _ _ _ _ _ _ _ (by decide) (by decide)
          (by decide) (by decide) (by decide) (by decide) (by decide) (by decide),
          getKey_citationsField_ne _ _ (by decide),
          getKey_returnControlField_ne _ _ (by decide),
          getKey_savedFilesField_ne _ _ (by decide), Option.none_or, Option.or_none,
          Option.or_none]
        exact filesField_self files ff hff
      · rw [getKey_doc _ _ _ _ _ _ _ _ _ _ _ _ (by decide) (by decide)
          (by decide) (by decide) (by decide) (by decide) (by decide) (by decide),
          getKey_citationsField_ne _ _ (by decide), filesField_ne _ _ _ hff (by decide),
          getKey_returnControlField_ne _ _ (by decide), Option.none_or, Option.none_or,
          Option.none_or]
        exact getKey_savedFilesField_self savedFiles
      · rw [getKey_doc _ _ _ _ _ _ _ _ _ _ _ _ (by decide) (by decide)
          (by decide) (by decide) (by decide) (by decide) (by decide) (by decide),
          getKey_citationsField_ne _ _ (by decide), filesField_ne _ _ _ hff (by decide),
          getKey_savedFilesField_ne _ _ (by decide), Option.none_or, Option.none_or,
          Option.or_none]
        exact getKey_returnControlField_self hasReturnControl

/-- Witness for C9: the empty reduced result's document carries none of
the optional keys, and each biconditional holds at it. -/
theorem c9_witness :
    ((getKey c9wdoc "citations").isSome = true ↔ ([] : List Citation) ≠ [])
    ∧ ((getKey c9wdoc "files").isSome = true ↔ ([] : List OutputFile) ≠ [])
    ∧ ((getKey c9wdoc "savedFiles").isSome = true ↔ ([] : List GoStr) ≠ [])
    ∧ ((getKey c9wdoc "returnedControl").isSome = true ↔ false = true) :=
  (c9_structured_optional_fields c9wopts (fun _ => none) (gs "t") none none none
    [] [] [] false []).2 c9wdoc rfl

lemma mkFileInfos_isSome (files : List OutputFile)
    (h : ∀ f ∈ files, f.name.isSome = true) : (mkFileInfos files).isSome = true := by
  induction files with
  | nil => rfl
  | cons f rest ih =>
    obtain ⟨n, hn⟩ := Option.isSome_iff_exists.mp (h f (by simp))
    obtain ⟨tail, htail⟩ :=
      Option.isSome_iff_exists.mp (ih (fun g hg => h g (by simp [hg])))
    simp [mkFileInfos, hn, htail]

/-- C10: the structured formatter's file-metadata construction
dereferences each file name unconditionally, so a generated file without
a name makes the formatting step panic (here: return no document), while
the materializer on the same input succeeds by silently skipping the
nameless file; under the precondition that every generated file carries a
name, the formatter's panic branch is unreachable and a document is
always produced. -/
theorem c10_formatter_name_dereference :
    writeJSONResponseDoc c10opts (fun _ => none) (gs "t") none none none [] []
        [⟨none, ['1'], none⟩] false [] = none
    ∧ HandleFileOutput c10opts [⟨none, ['1'], none⟩] c10fs = ([], none, c10fs)
    ∧ ∀ (opts : AgentOptions) (statFS : GoStr → Option Nat) (now : GoStr)
        (contentType sessionId memoryId : Option GoStr) (textContent : Bytes)
        (citations : List Citation) (files : List OutputFile) (hasReturnControl : Bool)
        (savedFiles : List GoStr),
        (∀ f ∈ files, f.name.isSome = true) →
        (writeJSONResponseDoc opts statFS now contentType sessionId memoryId textContent
          citations files hasReturnControl savedFiles).isSome = true := by
  refine ⟨rfl, rfl, ?_⟩
  intro opts statFS now contentType sessionId memoryId textContent citations files
    hasReturnControl savedFiles h
  rw [writeJSONResponseDoc, addResponseMetadata, filesField]
  split
  · obtain ⟨infos, hinfos⟩ := Option.isSome_iff_exists.mp (mkFileInfos_isSome files h)
    simp [hinfos]
  · simp

/-- Witness for C10: a single named file always yields a document. -/
theorem c10_witness :
    (writeJSONResponseDoc c10opts (fun _ => none) (gs "t") none none none [] []
      [⟨some (gs "a.csv"), ['1'], none⟩] false []).isSome = true := by
  refine c10_formatter_name_dereference.2.2 c10opts (fun _ => none) (gs "t") none none none
    [] [] [⟨some (gs "a.csv"), ['1'], none⟩] false [] ?_
  intro f hf
  simp only [List.mem_singleton] at hf
  subst hf
  rfl

end AwsBia

